import Mathlib

/-!
# Verification of the telegraph-sdk content transformation pipeline

Shallow embedding of the content transformation pipeline of the
telegraph-sdk repository:

* `src/telegraph/content/html.py` — `TelegraphHTMLParser`, `HTMLProcessor`
* `src/telegraph/content/markdown.py` — `MarkdownProcessor` (string rewrites)
* `src/telegraph/content/validators.py` — `ContentValidator`
* `src/telegraph/core/client.py` — `TelegraphClient._process_content`

The HTML tokenizer of Python's `html.parser` standard library is not part of
the repository; HTML inputs are therefore modelled at the level of the event
stream the tokenizer delivers to the handler callbacks (`handle_starttag`,
`handle_endtag`, `handle_data`), which is exactly the interface the
repository code implements.
-/

/-- An event of the HTML tokenizer, as delivered to the handler methods of
`TelegraphHTMLParser` (html.py): a start tag with its attribute list, an end
tag, or a run of character data. -/
inductive Tok where
  | startTag (tag : String) (attrs : List (String × String))
  | endTag (tag : String)
  | dataTok (s : String)
deriving DecidableEq, Repr

/-- A Telegraph content node as built by `TelegraphHTMLParser`: either a text
leaf (a Python `str`) or an element dict with `tag`, `attrs`, `children`. -/
inductive Node where
  | text (s : String)
  | elem (tag : String) (attrs : List (String × String)) (children : List Node)
deriving Repr

/-- ALLOWED_TAGS of `TelegraphHTMLParser` (html.py lines 12–37). -/
def allowedTags : List String :=
  ["a", "aside", "b", "blockquote", "br", "code", "em", "figcaption",
   "figure", "h3", "h4", "hr", "i", "iframe", "img", "li", "ol", "p",
   "pre", "s", "strong", "u", "ul", "video"]

/-- ALLOWED_ATTRIBUTES of `TelegraphHTMLParser` (html.py lines 38–43); the
default for tags without an entry is the empty set. -/
def allowedAttributes (tag : String) : List String :=
  if tag = "a" then ["href", "title"]
  else if tag = "img" then ["src", "alt", "title"]
  else if tag = "iframe" then ["src", "width", "height"]
  else if tag = "video" then ["src", "width", "height", "controls"]
  else []

/-- Insertion into a Python dict represented as an association list in
insertion order: assigning to an existing key overwrites in place, a new key
is appended at the end. -/
def dictInsert (k v : String) (d : List (String × String)) :
    List (String × String) :=
  if d.any (fun p => p.1 = k) then
    d.map (fun p => if p.1 = k then (k, v) else p)
  else
    d ++ [(k, v)]

/-- Attribute filtering of `handle_starttag` (html.py lines 64–66): each
attribute whose name is in the tag's allowed set is assigned into the node's
`attrs` dict, in order. -/
def filterAttrs (tag : String) (attrs : List (String × String)) :
    List (String × String) :=
  attrs.foldl
    (fun d p => if p.1 ∈ allowedAttributes tag then dictInsert p.1 p.2 d else d)
    []

/-- Python's falsiness test `data.strip()` (html.py line 93): the stripped
string is empty exactly when every character is whitespace. -/
def wsOnly (s : String) : Bool := s.data.all (fun c => c.isWhitespace)

/-- An open element on the parser's stack: its tag, filtered attributes, and
the children accumulated so far.  This functional state mirrors the mutable
`nodes` / `current_nodes` / `parent_stack` / `tag_stack` fields of
`TelegraphHTMLParser.__init__` (html.py lines 45–51): `openStack` lists the
currently open elements innermost first, and `roots` holds the completed
root-level nodes. -/
structure ParserState where
  roots : List Node
  openStack : List (String × List (String × String) × List Node)
deriving Repr

/-- The freshly initialized parser state (html.py lines 45–51). -/
def freshState : ParserState := ⟨[], []⟩

/-- Appending a completed node at the current insertion point: the children
of the innermost open element, or the root list when the stack is empty. -/
def pushNode (n : Node) (st : ParserState) : ParserState :=
  match st.openStack with
  | [] => { st with roots := st.roots ++ [n] }
  | (t, a, cs) :: rest => { st with openStack := (t, a, cs ++ [n]) :: rest }

/-- One handler step of `TelegraphHTMLParser` (html.py lines 53–94):
a start tag of an allowed tag opens a new element with filtered attributes
(disallowed tags are ignored entirely); an end tag pops only when it matches
the innermost open tag (mismatched or stray end tags are ignored); character
data that is not purely whitespace is appended at the insertion point. -/
def handleTok (st : ParserState) (tok : Tok) : ParserState :=
  match tok with
  | .startTag tag attrs =>
      if tag ∈ allowedTags then
        { st with openStack := (tag, filterAttrs tag attrs, []) :: st.openStack }
      else st
  | .endTag tag =>
      match st.openStack with
      | [] => st
      | (t, a, cs) :: rest =>
          if tag = t then pushNode (.elem t a cs) { st with openStack := rest }
          else st
  | .dataTok s => if wsOnly s then st else pushNode (.text s) st

/-- Feeding a stream of tokenizer events to the parser (`feed`). -/
def feed (st : ParserState) (ts : List Tok) : ParserState :=
  ts.foldl handleTok st

/-- Helper for `getNodes`: folds the remaining open elements back into the
tree.  In the Python code every element node is inserted into its parent's
children list already at start-tag time and mutated in place, so `get_nodes`
(html.py lines 96–104) sees still-open elements as the last child of their
parent, with whatever children they have accumulated. -/
def wrapOpen : List (String × List (String × String) × List Node) →
    Option Node → List Node → List Node
  | [], none, roots => roots
  | [], some n, roots => roots ++ [n]
  | (t, a, cs) :: rest, none, roots => wrapOpen rest (some (.elem t a cs)) roots
  | (t, a, cs) :: rest, some n, roots =>
      wrapOpen rest (some (.elem t a (cs ++ [n]))) roots

/-- The node list returned by `get_nodes` (html.py lines 96–104) for a given
parser state: completed roots with the still-open spine re-attached. -/
def getNodes (st : ParserState) : List Node :=
  wrapOpen st.openStack none st.roots

/-- Model of `HTMLProcessor.html_to_nodes` (html.py lines 132–147).  The
processor holds a single parser instance constructed in `__init__`
(html.py line 112).  After feeding, the code calls `self._parser.reset()`,
but `HTMLParser.reset` resets only the tokenizer's internal buffer: the
custom fields `nodes`, `current_nodes`, `parent_stack` and `tag_stack` are
not cleared, so the accumulated state carries over into the next call.  The
model therefore returns the post-feed state unchanged alongside the node
snapshot. -/
def htmlToNodes (st : ParserState) (ts : List Tok) :
    ParserState × List Node :=
  let st2 := feed st ts
  (st2, getNodes st2)

/-- Parsing a token stream on a freshly constructed processor. -/
def parseFresh (ts : List Tok) : List Node :=
  (htmlToNodes freshState ts).2

/-!
## Validator data model (validators.py)

`ContentValidator` inspects nodes duck-typed: a node is either a Python
`str` or a dict.  Dict values occurring in node trees are strings, attribute
dicts, or lists of nodes; `PVal` covers exactly these. -/

mutual
/-- A Python value used as a node in a Telegraph node tree: a `str` leaf or
a dict of fields. -/
inductive PNode where
  | str (s : String)
  | obj (fields : List (String × PVal))
/-- A Python value used as a dict field value in a node tree. -/
inductive PVal where
  | vstr (s : String)
  | vdict (d : List (String × String))
  | vnodes (ns : List PNode)
end

/-- Python's `key in dict` membership test on the association-list model. -/
def hasKey (k : String) (fields : List (String × PVal)) : Bool :=
  fields.any (fun p => p.1 = k)

mutual
/-- `ContentValidator._validate_single_node` (validators.py lines 111–132):
a `str` is valid; a dict without a `"tag"` key is invalid; a dict with a
`"children"` key recurses into the children; otherwise valid.  Note that the
value stored under `"tag"` is never inspected. -/
def validateSingleNode : PNode → Bool
  | .str _ => true
  | .obj fields => if hasKey "tag" fields then childrenOk fields else false
/-- Lookup of the `"children"` field followed by the recursive call
`self.validate_nodes(node["children"])`; absent key means valid. -/
def childrenOk : List (String × PVal) → Bool
  | [] => true
  | (k, v) :: rest => if k = "children" then childValOk v else childrenOk rest
/-- Validation of the `"children"` value.  Python's `validate_nodes` iterates
its argument: iterating a list visits the child nodes; iterating a `str`
yields one-character strings, each valid; iterating a dict yields its string
keys, each valid. -/
def childValOk : PVal → Bool
  | .vstr _ => true
  | .vdict _ => true
  | .vnodes ns => validateNodes ns
/-- `ContentValidator.validate_nodes` (validators.py lines 97–109):
`all(self._validate_single_node(node) for node in nodes)`. -/
def validateNodes : List PNode → Bool
  | [] => true
  | n :: ns => validateSingleNode n && validateNodes ns
end

mutual
/-- Whether a node tree contains, reachable through `"children"` list values
(the only recursion path the validator follows), a dict node lacking the
`"tag"` key. -/
def nodeMissingTag : PNode → Bool
  | .str _ => false
  | .obj fields => if hasKey "tag" fields then childrenBad fields else true
/-- Reachable missing-tag check inside the `"children"` field. -/
def childrenBad : List (String × PVal) → Bool
  | [] => false
  | (k, v) :: rest => if k = "children" then childValBad v else childrenBad rest
/-- Reachable missing-tag check on a `"children"` value. -/
def childValBad : PVal → Bool
  | .vstr _ => false
  | .vdict _ => false
  | .vnodes ns => anyMissingTag ns
/-- Whether some node of the list has a reachable missing-tag dict. -/
def anyMissingTag : List PNode → Bool
  | [] => false
  | n :: ns => nodeMissingTag n || anyMissingTag ns
end

mutual
/-- The dict literal built by `handle_starttag` (html.py line 63): every
element node carries exactly the keys `tag`, `attrs`, `children`. -/
def nodeToPy : Node → PNode
  | .text s => .str s
  | .elem t a cs =>
      .obj [("tag", .vstr t), ("attrs", .vdict a),
            ("children", .vnodes (nodesToPy cs))]
/-- Pointwise `nodeToPy` on a node list. -/
def nodesToPy : List Node → List PNode
  | [] => []
  | n :: ns => nodeToPy n :: nodesToPy ns
end

/-- Model of `ContentValidator.html_to_nodes` (validators.py lines 80–95):
convert, then raise `ValueError("Invalid node structure")` when validation
fails.  The facade shares the processor's parser state. -/
def validatorHtmlToNodes (st : ParserState) (ts : List Tok) :
    ParserState × Except String (List Node) :=
  let r := htmlToNodes st ts
  (r.1, if validateNodes (nodesToPy r.2) then .ok r.2
        else .error "Invalid node structure")

/-!
## Markdown pipeline string rewrites (markdown.py)

`MarkdownProcessor._optimize_for_telegraph` applies string-level rewrites
implemented with `re.sub` and `str.replace`.  The regular expressions used
are of two shapes only — a literal, and `<name[^>]*>` (plus the class form
`<h[3-6][^>]*>`), with the stripping step adding a non-greedy
`(.*?)</name>` — so each substitution is modelled by a direct left-to-right
scan with the same leftmost, non-overlapping match semantics as `re.sub`. -/

/-- Consumes the literal `pat` from the front of `s`, returning the rest. -/
def dropLit : List Char → List Char → Option (List Char)
  | [], s => some s
  | _ :: _, [] => none
  | p :: ps, c :: cs => if c = p then dropLit ps cs else none

/-- Consumes `[^>]*>`: skips to and over the next `>`, failing at end of
input (the regex requires the closing `>`). -/
def afterTagClose : List Char → Option (List Char)
  | [] => none
  | c :: cs => if c = '>' then some cs else afterTagClose cs

/-- Match of `<name[^>]*>` at the head of the input, returning the suffix
after the `>`. -/
def matchOpenAt (name : List Char) (s : List Char) : Option (List Char) :=
  match dropLit ('<' :: name) s with
  | none => none
  | some r => afterTagClose r

/-- Match of `<h[3-6][^>]*>` at the head of the input. -/
def matchOpenH36At : List Char → Option (List Char)
  | '<' :: 'h' :: d :: rest =>
      if d = '3' ∨ d = '4' ∨ d = '5' ∨ d = '6' then afterTagClose rest
      else none
  | _ => none

/-- Match of `</h[3-6]>` at the head of the input. -/
def matchCloseH36At : List Char → Option (List Char)
  | '<' :: '/' :: 'h' :: d :: '>' :: rest =>
      if d = '3' ∨ d = '4' ∨ d = '5' ∨ d = '6' then some rest
      else none
  | _ => none

/-- Generic `re.sub` driver: scans left to right; at each position, if the
matcher succeeds (consuming at least one character), the match is replaced
by `repl` and scanning resumes after it, otherwise the scan advances one
character.  `fuel` is instantiated with the input length, which bounds the
number of steps since every step consumes at least one character. -/
def subMatchAux (m : List Char → Option (List Char)) (repl : List Char) :
    Nat → List Char → List Char
  | 0, s => s
  | _ + 1, [] => []
  | fuel + 1, c :: cs =>
      match m (c :: cs) with
      | some rest => repl ++ subMatchAux m repl fuel rest
      | none => c :: subMatchAux m repl fuel cs

/-- Runs a substitution driver over a string. -/
def subMatch (m : List Char → Option (List Char)) (repl : String)
    (s : String) : String :=
  ⟨subMatchAux m repl.data s.data.length s.data⟩

/-- `re.sub(r"<name[^>]*>", repl, s)` for a literal tag name. -/
def reSubOpen (name repl : String) (s : String) : String :=
  subMatch (matchOpenAt name.data) repl s

/-- Replacement of every occurrence of a literal pattern (`str.replace`,
and `re.sub` on a pattern without metacharacters). -/
def replaceAll (pat repl : String) (s : String) : String :=
  subMatch (dropLit pat.data) repl s

/-- `MarkdownProcessor._convert_headers` (markdown.py lines 96–118), in
source order: first `<h1>`→`<h3>` and `<h2>`→`<h4>`, then the
`<h[3-6]>`→`<p><strong>` pass (which therefore also matches the `<h3>` and
`<h4>` tags just produced). -/
def convertHeaders (s : String) : String :=
  let s := reSubOpen "h1" "<h3>" s
  let s := replaceAll "</h1>" "</h3>" s
  let s := reSubOpen "h2" "<h4>" s
  let s := replaceAll "</h2>" "</h4>" s
  let s := subMatch matchOpenH36At "<p><strong>" s
  let s := subMatch matchCloseH36At "</strong></p>" s
  s

/-- `MarkdownProcessor._optimize_code_blocks` (markdown.py lines 120–132):
replaces the literal `<div class="highlight">` by `<pre>` and every
`</div>` — with no class restriction — by `</pre>`. -/
def optimizeCodeBlocks (s : String) : String :=
  replaceAll "</div>" "</pre>" (replaceAll "<div class=\"highlight\">" "<pre>" s)

/-- `MarkdownProcessor._convert_strong_and_em` (markdown.py lines 199–215). -/
def convertStrongAndEm (s : String) : String :=
  let s := replaceAll "<strong>" "<b>" s
  let s := replaceAll "</strong>" "</b>" s
  let s := replaceAll "<em>" "<i>" s
  let s := replaceAll "</em>" "</i>" s
  s

/-- Splits the input at the first occurrence of the literal `pat`,
returning the part before it and the part after it. -/
def splitOnFirst (pat : List Char) : List Char → Option (List Char × List Char)
  | [] => match dropLit pat [] with
          | some r => some ([], r)
          | none => none
  | c :: cs =>
      match dropLit pat (c :: cs) with
      | some r => some ([], r)
      | none =>
        match splitOnFirst pat cs with
        | some p => some (c :: p.1, p.2)
        | none => none

/-- One `re.sub(rf"<tag[^>]*>(.*?)</tag>", group1, s, flags=DOTALL)` pass
(markdown.py line 235): at each position, if `<tag[^>]*>` matches and a
later `</tag>` exists, the whole match is replaced by the (non-greedy,
hence earliest-closed) content between them and scanning resumes after the
consumed `</tag>`; otherwise the scan advances one character.  The rewritten
text is not rescanned, exactly as with a single `re.sub` call. -/
def stripTagAux (tag : List Char) : Nat → List Char → List Char
  | 0, s => s
  | _ + 1, [] => []
  | fuel + 1, c :: cs =>
      match matchOpenAt tag (c :: cs) with
      | some afterOpen =>
          match splitOnFirst ('<' :: '/' :: (tag ++ ['>'])) afterOpen with
          | some p => p.1 ++ stripTagAux tag fuel p.2
          | none => c :: stripTagAux tag fuel cs
      | none => c :: stripTagAux tag fuel cs

/-- String-level wrapper for one unsupported-tag stripping pass. -/
def stripTag (tag : String) (s : String) : String :=
  ⟨stripTagAux tag.data s.data.length s.data⟩

/-- `MarkdownProcessor._clean_unsupported_tags` (markdown.py lines 217–237):
one regex pass per unsupported tag, in the listed order. -/
def cleanUnsupportedTags (s : String) : String :=
  ["div", "span", "table", "tbody", "thead", "tr", "td", "th", "video"].foldl
    (fun h t => stripTag t h) s

/-!
## Serializer and sanitize pipeline (html.py) -/

/-- Attribute rendering of `_node_to_html` (html.py line 182):
`" ".join(f'{k}="{v}"')` in dict insertion order. -/
def attrsToHtml (attrs : List (String × String)) : String :=
  String.intercalate " "
    (attrs.map (fun p => p.1 ++ "=\"" ++ p.2 ++ "\""))

mutual
/-- `HTMLProcessor._node_to_html` (html.py lines 166–185): a text leaf is
emitted verbatim; an element is emitted as
`<tag attrs>children</tag>` (with the space after the tag name always
present, matching the f-string `f"<{tag} {attrs}>{children}</{tag}>"`). -/
def nodeToHtml : Node → String
  | .text s => s
  | .elem t a cs =>
      "<" ++ t ++ " " ++ attrsToHtml a ++ ">" ++ nodesToHtml cs ++ "</" ++ t ++ ">"
/-- `HTMLProcessor.nodes_to_html` (html.py lines 149–164): concatenation of
the rendered nodes. -/
def nodesToHtml : List Node → String
  | [] => ""
  | n :: ns => nodeToHtml n ++ nodesToHtml ns
end

mutual
/-- The canonical token stream of a node: the event sequence Python's
tokenizer delivers for the HTML text of that node (start tag with its
attributes, the children's events, end tag; a bare data event for text). -/
def nodeToTokens : Node → List Tok
  | .text s => [.dataTok s]
  | .elem t a cs => .startTag t a :: (nodesToTokens cs ++ [.endTag t])
/-- Token stream of a node sequence. -/
def nodesToTokens : List Node → List Tok
  | [] => []
  | n :: ns => nodeToTokens n ++ nodesToTokens ns
end

/-- Pairwise-distinct keys in an attribute association list. -/
def nodupKeys : List (String × String) → Bool
  | [] => true
  | p :: rest => rest.all (fun q => q.1 ≠ p.1) && nodupKeys rest

/-- Attribute keys with no duplicates, each allowed for the given tag. -/
def attrsValid (tag : String) (attrs : List (String × String)) : Bool :=
  nodupKeys attrs && attrs.all (fun p => p.1 ∈ allowedAttributes tag)

mutual
/-- A node made only of allowed tags, allowed duplicate-free attributes and
non-whitespace text: the hypothesis of the round-trip property. -/
def validNode : Node → Bool
  | .text s => !wsOnly s
  | .elem t a cs => t ∈ allowedTags && attrsValid t a && validNodes cs
/-- Validity of a node sequence. -/
def validNodes : List Node → Bool
  | [] => true
  | n :: ns => validNode n && validNodes ns
end

/-- Whether a tag is `script` or `style` (html.py line 200). -/
def isScriptStyle (t : String) : Bool := t = "script" || t = "style"

/-- Model of `HTMLProcessor._remove_scripts_and_styles` (html.py lines
187–202) on the token stream: BeautifulSoup's `decompose()` deletes each
`script`/`style` element together with everything inside it, so the stream
is copied until a `script`/`style` start tag, after which all events up to
the matching end tag (or end of input) are dropped.  The first argument
records the tag of the region currently being dropped. -/
def removeSSAux : Option String → List Tok → List Tok
  | _, [] => []
  | some t, tok :: rest =>
      match tok with
      | .endTag u => if u = t then removeSSAux none rest else removeSSAux (some t) rest
      | _ => removeSSAux (some t) rest
  | none, tok :: rest =>
      match tok with
      | .startTag t a =>
          if isScriptStyle t then removeSSAux (some t) rest
          else .startTag t a :: removeSSAux none rest
      | x => x :: removeSSAux none rest

/-- Script/style removal on a whole stream. -/
def removeScriptsStyles (ts : List Tok) : List Tok := removeSSAux none ts

/-- `HTMLProcessor._normalize_whitespace` (html.py lines 204–216):
`" ".join(html.split())`, i.e. runs of whitespace collapse to single spaces
and leading/trailing whitespace is dropped. -/
def normalizeWs (s : String) : String :=
  String.intercalate " " ((s.split Char.isWhitespace).filter (fun p => p ≠ ""))

/-- The whitespace normalization step on the token-stream model of the HTML
text: tag markup contains no whitespace runs affected by the join, so the
step acts on the data events.  (`_fix_malformed_tags`, a plain
BeautifulSoup parse/serialize, is the identity on the stream.) -/
def normalizeStream (ts : List Tok) : List Tok :=
  ts.map (fun tok => match tok with
    | .dataTok s => .dataTok (normalizeWs s)
    | t => t)

/-- Model of `HTMLProcessor.sanitize_html` (html.py lines 114–130): remove
scripts and styles, normalize whitespace, fix malformed tags (identity on
the stream), then convert to nodes with the processor's parser and render
back to HTML.  The parser state is threaded because the processor's parser
is shared across calls. -/
def sanitizeHtml (st : ParserState) (ts : List Tok) : ParserState × String :=
  let r := htmlToNodes st (normalizeStream (removeScriptsStyles ts))
  (r.1, nodesToHtml r.2)

/-!
## Content dispatch (client.py) -/

/-- An error raised by `_process_content` (client.py lines 519–545). -/
inductive PErr where
  | validationError (field msg : String)
  | valueError (msg : String)
deriving DecidableEq, Repr

/-- The `content` field of a `PageContent`: a raw string (markdown or HTML
source) or an already-built node tree. -/
inductive Payload where
  | strP (s : String)
  | nodesP (ns : List PNode)

/-- `ContentValidator.validate_nodes` applied to a payload: iterating a
node list validates each node; iterating a `str` yields one-character
strings, all valid. -/
def payloadValidates : Payload → Bool
  | .strP _ => true
  | .nodesP ns => validateNodes ns

/-- Model of `TelegraphClient._process_content` (client.py lines 519–545).
The markdown and HTML conversion pipelines invoked by the first two
branches are passed in as functions, since the dispatch never inspects
them before matching on `content_type`: for `"nodes"` the payload is
validated as-is and returned unchanged, and any other string raises
`ValueError(f"Unsupported content type: {content_type}")`. -/
def processContent (mdPipe htmlPipe : Payload → Except PErr Payload)
    (contentType : String) (payload : Payload) : Except PErr Payload :=
  if contentType = "markdown" then mdPipe payload
  else if contentType = "html" then htmlPipe payload
  else if contentType = "nodes" then
    if payloadValidates payload then .ok payload
    else .error (.validationError "content" "Invalid node structure")
  else .error (.valueError ("Unsupported content type: " ++ contentType))

/-- Outcome of `TelegraphClient.create_page` (client.py lines 312–350) up to
the network boundary: `_process_content` runs first (line 328), and only on
success is a request issued with the processed body (line 341). -/
inductive ClientOutcome where
  | requested (body : Payload)
  | failed (e : PErr)

/-- The `create_page` control flow up to the network call: a failure in
`_process_content` propagates before any request is attempted. -/
def createPageOutcome (mdPipe htmlPipe : Payload → Except PErr Payload)
    (contentType : String) (payload : Payload) : ClientOutcome :=
  match processContent mdPipe htmlPipe contentType payload with
  | .ok body => .requested body
  | .error e => .failed e

/-- Sequential insertion of completed nodes at the current insertion point. -/
def pushAll (ns : List Node) (st : ParserState) : ParserState :=
  ns.foldl (fun s n => pushNode n s) st

/-- A stream with no `script`/`style` start event. -/
def noScriptStyleStart (ts : List Tok) : Bool :=
  ts.all (fun tok => match tok with
    | .startTag t _ => !isScriptStyle t
    | _ => true)

/-!
## BeautifulSoup parse→serialize round trip (markdown.py)

`MarkdownProcessor._handle_images` (markdown.py lines 134–169) and
`MarkdownProcessor._autolink_urls` (lines 171–197) each parse their input
with `BeautifulSoup(html, "html.parser")` and re-serialize it (the
`html.parser` tree builder creates no `body` element for fragments, so both
return `str(soup)`).  Even when their image- and URL-specific rewrites do
not fire, this round trip repairs malformed markup: an end tag with no
matching open element is dropped, a mismatched end tag implicitly closes
the elements above its match, and elements still open at end of input are
closed implicitly.  This model embeds that round trip at the string level,
with a tag's raw attribute text carried through verbatim. -/

/-- A node of the BeautifulSoup document tree: a text leaf or an element
with its tag name, raw attribute text and children. -/
inductive BNode where
  | bTxt (s : String)
  | bEl (name : String) (attrs : String) (children : List BNode)
deriving Repr

mutual
/-- Serialization of a BeautifulSoup node (`str(soup)`): text verbatim, an
element as its start tag with raw attribute text, its children, and its end
tag. -/
def bNodeToHtml : BNode → String
  | .bTxt s => s
  | .bEl n a cs => "<" ++ n ++ a ++ ">" ++ bNodesToHtml cs ++ "</" ++ n ++ ">"
/-- Serialization of a BeautifulSoup node list. -/
def bNodesToHtml : List BNode → String
  | [] => ""
  | n :: ns => bNodeToHtml n ++ bNodesToHtml ns
end

theorem feed_append (st : ParserState) (xs ys : List Tok) :
    feed st (xs ++ ys) = feed (feed st xs) ys :=
  List.foldl_append _ _ _ _

theorem dictInsert_fresh (k v : String) (d : List (String × String))
    (h : d.all (fun q => q.1 ≠ k) = true) :
    dictInsert k v d = d ++ [(k, v)] := by
  unfold dictInsert
  rw [if_neg]
  simp only [List.all_eq_true, decide_eq_true_eq] at h
  simp only [List.any_eq_true, decide_eq_true_eq, not_exists, not_and]
  intro p hp
  exact h p hp

theorem filterAttrs_go (t : String) (a : List (String × String)) :
    ∀ d : List (String × String),
    a.all (fun p => decide (p.1 ∈ allowedAttributes t)) = true →
    nodupKeys a = true →
    a.all (fun p => d.all (fun q => q.1 ≠ p.1)) = true →
    a.foldl
      (fun d p =>
        if p.1 ∈ allowedAttributes t then dictInsert p.1 p.2 d else d) d =
      d ++ a := by
  induction a with
  | nil => intro d _ _ _; simp
  | cons p rest ih =>
      intro d hall hnd hdisj
      simp only [List.all_cons, Bool.and_eq_true] at hall hdisj
      simp only [nodupKeys, Bool.and_eq_true] at hnd
      rw [List.foldl_cons]
      show List.foldl _
        (if p.1 ∈ allowedAttributes t then dictInsert p.1 p.2 d else d) rest =
        d ++ p :: rest
      rw [if_pos (by simpa using hall.1), dictInsert_fresh p.1 p.2 d hdisj.1]
      have hdisj2 :
          rest.all (fun q => (d ++ [(p.1, p.2)]).all fun r => r.1 ≠ q.1) = true := by
        simp only [List.all_eq_true, decide_eq_true_eq] at hdisj hnd ⊢
        intro q hq r hr
        rcases List.mem_append.mp hr with h1 | h2
        · exact hdisj.2 q hq r h1
        · rcases List.mem_singleton.mp h2 with rfl
          exact Ne.symm (hnd.1 q hq)
      rw [ih (d ++ [(p.1, p.2)]) hall.2 hnd.2 hdisj2]
      simp

theorem filterAttrs_id (t : String) (a : List (String × String))
    (h : attrsValid t a = true) : filterAttrs t a = a := by
  unfold attrsValid at h
  rw [Bool.and_eq_true] at h
  have := filterAttrs_go t a [] ?_ h.1 ?_
  · simpa [filterAttrs] using this
  · simpa using h.2
  · simp

theorem pushAll_open (ns : List Node) (roots : List Node)
    (t : String) (a : List (String × String)) (cs : List Node)
    (rest : List (String × List (String × String) × List Node)) :
    pushAll ns ⟨roots, (t, a, cs) :: rest⟩ = ⟨roots, (t, a, cs ++ ns) :: rest⟩ := by
  induction ns generalizing cs with
  | nil => simp [pushAll]
  | cons n ns ih =>
      simp only [pushAll, List.foldl_cons] at ih ⊢
      rw [show pushNode n ⟨roots, (t, a, cs) :: rest⟩ =
            ⟨roots, (t, a, cs ++ [n]) :: rest⟩ from rfl, ih]
      simp

theorem pushAll_root (ns roots : List Node) :
    pushAll ns ⟨roots, []⟩ = ⟨roots ++ ns, []⟩ := by
  induction ns generalizing roots with
  | nil => simp [pushAll]
  | cons n ns ih =>
      simp only [pushAll, List.foldl_cons] at ih ⊢
      rw [show pushNode n (⟨roots, []⟩ : ParserState) =
            ⟨roots ++ [n], []⟩ from rfl, ih]
      simp

mutual
theorem feed_nodeToTokens (n : Node) (h : validNode n = true) (st : ParserState) :
    feed st (nodeToTokens n) = pushNode n st := by
  cases n with
  | text s =>
      have h1 : wsOnly s = false := by simpa [validNode] using h
      simp [nodeToTokens, feed, handleTok, h1]
  | elem t a cs =>
      simp only [validNode, Bool.and_eq_true] at h
      obtain ⟨⟨ht, ha⟩, hcs⟩ := h
      have ht2 : t ∈ allowedTags := by simpa using ht
      simp only [nodeToTokens]
      rw [show (Tok.startTag t a :: (nodesToTokens cs ++ [Tok.endTag t])) =
            [Tok.startTag t a] ++ (nodesToTokens cs ++ [Tok.endTag t]) from rfl]
      rw [feed_append, feed_append]
      have e1 : feed st [Tok.startTag t a] =
          ⟨st.roots, (t, a, []) :: st.openStack⟩ := by
        simp [feed, handleTok, ht2, filterAttrs_id t a ha]
      rw [e1, feed_nodesToTokens cs hcs _, pushAll_open]
      simp [feed, handleTok, pushNode]
theorem feed_nodesToTokens (ns : List Node) (h : validNodes ns = true)
    (st : ParserState) : feed st (nodesToTokens ns) = pushAll ns st := by
  cases ns with
  | nil => simp [nodesToTokens, feed, pushAll]
  | cons n ns =>
      simp only [validNodes, Bool.and_eq_true] at h
      simp only [nodesToTokens]
      rw [feed_append, feed_nodeToTokens n h.1 st, feed_nodesToTokens ns h.2 _]
      simp [pushAll]
end

mutual
theorem validateSingle_nodeToPy (n : Node) :
    validateSingleNode (nodeToPy n) = true := by
  cases n with
  | text s => rfl
  | elem t a cs =>
      show validateSingleNode (.obj [("tag", .vstr t), ("attrs", .vdict a),
        ("children", .vnodes (nodesToPy cs))]) = true
      simp [validateSingleNode, hasKey, childrenOk, childValOk,
        validate_nodesToPy cs]
theorem validate_nodesToPy (ns : List Node) :
    validateNodes (nodesToPy ns) = true := by
  cases ns with
  | nil => rfl
  | cons n ns =>
      simp only [nodesToPy, validateNodes]
      rw [validateSingle_nodeToPy n, validate_nodesToPy ns]
      rfl
end

mutual
theorem validateSingle_eq_not_missing (n : PNode) :
    validateSingleNode n = !nodeMissingTag n := by
  cases n with
  | str s => rfl
  | obj fields =>
      simp only [validateSingleNode, nodeMissingTag]
      by_cases h : hasKey "tag" fields = true
      · rw [if_pos h, if_pos h, childrenOk_eq_not_bad fields]
      · rw [if_neg h, if_neg h]
        rfl
theorem childrenOk_eq_not_bad (fields : List (String × PVal)) :
    childrenOk fields = !childrenBad fields := by
  cases fields with
  | nil => rfl
  | cons p rest =>
      obtain ⟨k, v⟩ := p
      simp only [childrenOk, childrenBad]
      by_cases h : k = "children"
      · rw [if_pos h, if_pos h, childValOk_eq_not_bad v]
      · rw [if_neg h, if_neg h, childrenOk_eq_not_bad rest]
theorem childValOk_eq_not_bad (v : PVal) :
    childValOk v = !childValBad v := by
  cases v with
  | vstr s => rfl
  | vdict d => rfl
  | vnodes ns => exact validateNodes_eq_not_missing ns
theorem validateNodes_eq_not_missing (ns : List PNode) :
    validateNodes ns = !anyMissingTag ns := by
  cases ns with
  | nil => rfl
  | cons n rest =>
      simp only [validateNodes, anyMissingTag]
      rw [validateSingle_eq_not_missing n, validateNodes_eq_not_missing rest]
      simp
end

theorem removeSSAux_clean_append (pre ts : List Tok)
    (h : noScriptStyleStart pre = true) :
    removeSSAux none (pre ++ ts) = pre ++ removeSSAux none ts := by
  induction pre with
  | nil => rfl
  | cons tok rest ih =>
      simp only [noScriptStyleStart, List.all_cons, Bool.and_eq_true] at h
      have ih2 := ih (by simpa [noScriptStyleStart] using h.2)
      cases tok with
      | startTag t a =>
          have h1 : isScriptStyle t = false := by simpa using h.1
          simp [removeSSAux, h1, ih2]
      | endTag t => simp [removeSSAux, ih2]
      | dataTok s => simp [removeSSAux, ih2]

theorem removeSSAux_block (t : String) (a : List (String × String))
    (s : String) (post : List Tok) (ht : isScriptStyle t = true) :
    removeSSAux none (Tok.startTag t a :: Tok.dataTok s :: Tok.endTag t :: post) =
      removeSSAux none post := by
  simp [removeSSAux, ht]

/-!
## Claim theorems -/

/-- C1: the claim states that Markdown headers map h1→`<h3>`, h2→`<h4>`,
and only original h3–h6 become `<p><strong>…</strong></p>`, so that the
input `"# H1\n## H2\n### H3"` (whose Markdown conversion is
`<h1>H1</h1>\n<h2>H2</h2>\n<h3>H3</h3>`) yields tags
`<h3>H1</h3><h4>H2</h4><p><strong>H3</strong></p>`.  Evaluating the
embedded rewrite passes of `_optimize_for_telegraph` in source order (the
BeautifulSoup-based image and autolink passes are omitted: this input has
no `<img>` element and no `http` substring, so they leave it unchanged)
shows the code instead demotes all three headers, because the h3–h6 pass
runs after the h1/h2 remap and also catches the freshly produced `<h3>`
and `<h4>`, and the strong→b pass then renames the wrappers.  The second
conjunct isolates the double transformation in `_convert_headers` alone. -/
theorem c1_headers_double_transformed :
    cleanUnsupportedTags (convertStrongAndEm (optimizeCodeBlocks
      (convertHeaders "<h1>H1</h1>\n<h2>H2</h2>\n<h3>H3</h3>"))) =
      "<p><b>H1</b></p>\n<p><b>H2</b></p>\n<p><b>H3</b></p>" ∧
    convertHeaders "<h1>H1</h1>" = "<p><strong>H1</strong></p>" :=
  ⟨rfl, rfl⟩

/-- C2: the claim states that `html_to_nodes` on a previously used
`HTMLProcessor` returns exactly what a fresh processor would return.  The
code calls `HTMLParser.reset()`, which does not clear the custom `nodes` /
`current_nodes` / `parent_stack` / `tag_stack` fields, so the second call
returns the accumulated node list: after processing `<p>a</p>`, processing
`<p>b</p>` returns both paragraphs, while a fresh processor returns only
the second. -/
theorem c2_parser_state_carries_over :
    (htmlToNodes (htmlToNodes freshState
        [.startTag "p" [], .dataTok "a", .endTag "p"]).1
        [.startTag "p" [], .dataTok "b", .endTag "p"]).2 =
      [.elem "p" [] [.text "a"], .elem "p" [] [.text "b"]] ∧
    parseFresh [.startTag "p" [], .dataTok "b", .endTag "p"] =
      [.elem "p" [] [.text "b"]] ∧
    (htmlToNodes (htmlToNodes freshState
        [.startTag "p" [], .dataTok "a", .endTag "p"]).1
        [.startTag "p" [], .dataTok "b", .endTag "p"]).2 ≠
      parseFresh [.startTag "p" [], .dataTok "b", .endTag "p"] := by
  refine ⟨rfl, rfl, fun h => ?_⟩
  have h2 : ([Node.elem "p" [] [.text "a"], Node.elem "p" [] [.text "b"]] :
      List Node) = [Node.elem "p" [] [.text "b"]] := h
  simp at h2

/-- C3: for every parser state and every event stream — including streams
with mismatched or missing end tags — the facade's `html_to_nodes` returns
the parsed node list and never takes the `"Invalid node structure"` error
branch, because the parser emits only strings and element dicts that always
carry a `tag` key. -/
theorem c3_facade_never_raises (st : ParserState) (ts : List Tok) :
    (validatorHtmlToNodes st ts).2 = Except.ok (htmlToNodes st ts).2 := by
  simp [validatorHtmlToNodes, validate_nodesToPy]

/-- C4: for every node tree built only from allowed tags, duplicate-free
allowed attributes and non-whitespace text — i.e. for the token stream of
any HTML string built only from allowed tags and attributes — parsing the
tree's token stream on a fresh processor reproduces the tree exactly, so
the round trip `nodes_to_html(html_to_nodes(html))` preserves all tag
names, attribute sets and text content. -/
theorem c4_roundtrip (ns : List Node) (h : validNodes ns = true) :
    parseFresh (nodesToTokens ns) = ns ∧
    nodesToHtml (parseFresh (nodesToTokens ns)) = nodesToHtml ns := by
  have e : parseFresh (nodesToTokens ns) = ns := by
    show getNodes (feed freshState (nodesToTokens ns)) = ns
    rw [feed_nodesToTokens ns h freshState,
      show (freshState : ParserState) = ⟨[], []⟩ from rfl, pushAll_root]
    rfl
  exact ⟨e, by rw [e]⟩

/-- Witness for C4 at a concrete valid tree. -/
theorem c4_roundtrip_witness :
    validNodes [Node.elem "a" [("href", "u"), ("title", "t")]
      [Node.text "x"]] = true ∧
    parseFresh (nodesToTokens [Node.elem "a" [("href", "u"), ("title", "t")]
      [Node.text "x"]]) =
      [Node.elem "a" [("href", "u"), ("title", "t")] [Node.text "x"]] :=
  ⟨by decide, (c4_roundtrip _ (by decide)).1⟩

/-- C5: the claim states that the unsupported-tag stripping removes every
occurrence of the unsupported tags even when same-named tags nest.  The
single non-greedy regex pass instead matches the outer open tag with the
innermost close tag: on `<div>a<div>b</div>c</div>` the inner `<div>` open
tag and the outer `</div>` close tag survive, so the result is
`a<div>bc</div>` rather than `abc`. -/
theorem c5_nested_div_not_removed :
    cleanUnsupportedTags "<div>a<div>b</div>c</div>" = "a<div>bc</div>" ∧
    cleanUnsupportedTags "<div>a<div>b</div>c</div>" ≠ "abc" :=
  ⟨rfl, by decide⟩

/-- C7 counterexample: the claim states that `validate_nodes` returns false
for an element node whose `tag` is present but empty (or not a string).
The code only tests `"tag" not in node` and never inspects the value, so a
node with an empty-string `tag` validates successfully. -/
theorem c7_empty_tag_accepted :
    validateNodes [.obj [("tag", .vstr "")]] = true := by decide

/-- C7 (amended): `validate_nodes` returns false whenever the tree
contains, at any depth reachable through `children` lists, a non-text node
lacking the `tag` key; the value stored under `tag` is not inspected. -/
theorem c7_missing_tag_rejected (ns : List PNode)
    (h : anyMissingTag ns = true) : validateNodes ns = false := by
  rw [validateNodes_eq_not_missing, h]
  rfl

/-- Witness for C7 at a concrete tagless node. -/
theorem c7_missing_tag_rejected_witness :
    anyMissingTag [PNode.obj [("attrs", PVal.vdict [])]] = true ∧
    validateNodes [PNode.obj [("attrs", PVal.vdict [])]] = false :=
  ⟨by decide, c7_missing_tag_rejected _ (by decide)⟩

/-- C8: for every HTML input containing a `<script>…</script>` or
`<style>…</style>` element (appearing after a prefix with no script/style
start tag), `sanitize_html` produces exactly the output it produces for the
same input with the whole element deleted: neither the tag nor its inner
text reaches the output. -/
theorem c8_sanitize_removes_script_content (st : ParserState)
    (pre post : List Tok) (t : String) (a : List (String × String))
    (s : String) (ht : isScriptStyle t = true)
    (hpre : noScriptStyleStart pre = true) :
    sanitizeHtml st
      (pre ++ Tok.startTag t a :: Tok.dataTok s :: Tok.endTag t :: post) =
      sanitizeHtml st (pre ++ post) := by
  unfold sanitizeHtml
  have e : removeScriptsStyles
      (pre ++ Tok.startTag t a :: Tok.dataTok s :: Tok.endTag t :: post) =
      removeScriptsStyles (pre ++ post) := by
    unfold removeScriptsStyles
    rw [removeSSAux_clean_append pre _ hpre, removeSSAux_block t a s post ht,
      removeSSAux_clean_append pre post hpre]
  rw [e]

/-- Witness for C8 at a concrete input with a script element. -/
theorem c8_sanitize_removes_script_content_witness :
    isScriptStyle "script" = true ∧
    noScriptStyleStart [Tok.startTag "p" [], Tok.dataTok "x",
      Tok.endTag "p"] = true ∧
    sanitizeHtml freshState
      ([Tok.startTag "p" [], Tok.dataTok "x", Tok.endTag "p"] ++
        Tok.startTag "script" [] :: Tok.dataTok "evil" ::
          Tok.endTag "script" :: []) =
      sanitizeHtml freshState
        ([Tok.startTag "p" [], Tok.dataTok "x", Tok.endTag "p"] ++ []) :=
  ⟨by decide, by decide,
    c8_sanitize_removes_script_content _ _ _ _ _ _ (by decide) (by decide)⟩

/-- C9: for every content whose `content_type` is outside
{markdown, html, nodes}, `_process_content` fails with
`ValueError("Unsupported content type: …")` naming the offending type, and
`create_page` therefore fails before issuing any request, independently of
the markdown/HTML pipelines; for `content_type = "nodes"` the supplied tree
is validated as-is — returned unchanged when valid, and rejected with a
`ValidationError("content", "Invalid node structure")` when invalid. -/
theorem c9_content_dispatch (mdPipe htmlPipe : Payload → Except PErr Payload)
    (ct : String) (payload : Payload) (ns : List PNode) :
    (ct ≠ "markdown" → ct ≠ "html" → ct ≠ "nodes" →
      createPageOutcome mdPipe htmlPipe ct payload =
        .failed (.valueError ("Unsupported content type: " ++ ct))) ∧
    (validateNodes ns = true →
      processContent mdPipe htmlPipe "nodes" (.nodesP ns) =
        .ok (.nodesP ns)) ∧
    (validateNodes ns = false →
      processContent mdPipe htmlPipe "nodes" (.nodesP ns) =
        .error (.validationError "content" "Invalid node structure")) := by
  refine ⟨fun h1 h2 h3 => ?_, fun hv => ?_, fun hv => ?_⟩
  · simp [createPageOutcome, processContent, h1, h2, h3]
  · simp [processContent, payloadValidates, hv]
  · simp [processContent, payloadValidates, hv]

/-- Witness for C9: an unsupported type fails before any request, a valid
tree passes through unchanged, an invalid tree is rejected. -/
theorem c9_content_dispatch_witness :
    createPageOutcome (fun p => .ok p) (fun p => .ok p) "text" (.nodesP []) =
      .failed (.valueError ("Unsupported content type: " ++ "text")) ∧
    processContent (fun p => .ok p) (fun p => .ok p) "nodes"
      (.nodesP [.str "x"]) = .ok (.nodesP [.str "x"]) ∧
    processContent (fun p => .ok p) (fun p => .ok p) "nodes"
      (.nodesP [.obj []]) =
      .error (.validationError "content" "Invalid node structure") :=
  ⟨(c9_content_dispatch _ _ "text" (.nodesP []) []).1
      (by decide) (by decide) (by decide),
   (c9_content_dispatch _ _ "x" (.nodesP []) [.str "x"]).2.1 (by decide),
   (c9_content_dispatch _ _ "x" (.nodesP []) [.obj []]).2.2 (by decide)⟩

/-- C10: when an allowed element (such as the void elements img, br, hr)
appears without a self-closing slash and without an explicit end tag, the
parser pushes it onto the open-element stack and does not pop it, so the
following content — here the text after the void start tag, up to the
enclosing end tag — is captured as children of that element rather than as
its siblings: `<p>a<br>b</p>` parses to a `p` whose children are the text
`a` and a `br` element containing the text `b`. -/
theorem c10_unclosed_element_swallows_content (p v a d : String)
    (hp : p ∈ allowedTags) (hv : v ∈ allowedTags) (hvp : v ≠ p)
    (ha : wsOnly a = false) (hd : wsOnly d = false) :
    parseFresh [Tok.startTag p [], Tok.dataTok a, Tok.startTag v [],
        Tok.dataTok d, Tok.endTag p] =
      [Node.elem p [] [Node.text a, Node.elem v [] [Node.text d]]] := by
  have hpv : ¬(p = v) := fun h => hvp h.symm
  show getNodes (feed freshState [Tok.startTag p [], Tok.dataTok a,
    Tok.startTag v [], Tok.dataTok d, Tok.endTag p]) = _
  simp [feed, handleTok, getNodes, wrapOpen, pushNode, filterAttrs,
    freshState, hp, hv, ha, hd, hpv]

/-- Witness for C10: the text `b` in `<p>a<br>b</p>` becomes a child of the
`br` element. -/
theorem c10_unclosed_element_swallows_content_witness :
    ("p" : String) ∈ allowedTags ∧ ("br" : String) ∈ allowedTags ∧
    ("br" : String) ≠ "p" ∧ wsOnly "a" = false ∧ wsOnly "b" = false ∧
    parseFresh [Tok.startTag "p" [], Tok.dataTok "a", Tok.startTag "br" [],
        Tok.dataTok "b", Tok.endTag "p"] =
      [Node.elem "p" [] [Node.text "a", Node.elem "br" [] [Node.text "b"]]] :=
  ⟨by decide, by decide, by decide, by decide, by decide,
    c10_unclosed_element_swallows_content "p" "br" "a" "b"
      (by decide) (by decide) (by decide) (by decide) (by decide)⟩
